import Mathlib

/-!
Shallow embedding of the per-guild batching collector of the File-Manager-Bot
repository (src/src/managers/CollectorManager.ts, together with the drain
pipeline built on src/src/services/GofileService.ts and the event wiring in
src/src/bot/DiscordClient.ts).

The collector keeps, per guild, a JavaScript Map from filename to a pending
file record and at most one debounce timer.  JavaScript Maps are modelled as
insertion-ordered association lists: set on an existing key overwrites the
value in place (keeping the position), set on a fresh key appends, values()
iterates in insertion order.

Asynchronous behaviour is modelled with explicit time: the timer is the
absolute deadline of the live setTimeout, and a timed-event semantics fires
it before any later event is processed (the node event loop runs the expired
timer callback before a later message event).  The fallible I/O of the drain
pipeline (axios download per file, Gofile upload) is modelled by oracle
functions returning Option/Except.
-/

namespace FMBot

/-- Bytes of a downloaded file (the arraybuffer turned into a Buffer). -/
abbrev Buffer := List Nat

/-- The PendantFile record of CollectorManager.ts: one file awaiting batching.
The optional isReplacement field is always set by handleFileEvent, the only
producer of these records, so it is modelled as a plain Bool. -/
structure PendantFile where
  messageId : String
  filename : String
  url : String
  username : String
  messageUrl : String
  isReplacement : Bool
deriving Repr, DecidableEq

/-- The part of a discord.js Message that CollectorManager reads. -/
structure MessageIn where
  id : String
  authorUsername : String
  url : String
deriving Repr, DecidableEq

/-- The part of a discord.js Attachment that CollectorManager reads. -/
structure AttachmentIn where
  name : String
  url : String
deriving Repr, DecidableEq

/-- A JavaScript Map with String keys: insertion-ordered association list
with pairwise-distinct keys. -/
abbrev JsMap (β : Type) := List (String × β)

/-- Map.prototype.has. -/
def jsHas {β : Type} (m : JsMap β) (k : String) : Bool :=
  m.any (fun p => p.1 == k)

/-- Map.prototype.set: overwrite in place when the key exists (keeping its
position in iteration order), append otherwise. -/
def jsSet {β : Type} (m : JsMap β) (k : String) (v : β) : JsMap β :=
  if jsHas m k then m.map (fun p => if p.1 == k then (k, v) else p)
  else m ++ [(k, v)]

/-- Map.prototype.delete. -/
def jsDelete {β : Type} (m : JsMap β) (k : String) : JsMap β :=
  m.filter (fun p => p.1 != k)

/-- Map.prototype.values, as a list in iteration (insertion) order. -/
def jsValues {β : Type} (m : JsMap β) : List β :=
  m.map (fun p => p.2)

/-- Keys are pairwise distinct: the invariant every JavaScript Map enjoys. -/
def keysNodup {β : Type} (m : JsMap β) : Prop :=
  (m.map (fun p => p.1)).Nodup

instance {β : Type} (m : JsMap β) : Decidable (keysNodup m) := by
  unfold keysNodup; infer_instance

/-- State of one guild inside CollectorManager, plus an instrumentation log.
pending models pendingFiles.get(guildId) (none: no entry for the guild yet);
timer models the live debounce setTimeout as its absolute deadline (none: no
live timer); drains records every processBatch invocation as (invocation
time, the filesToProcess snapshot - empty when the invocation early-returns
on an empty or absent mapping). -/
structure CoreState where
  pending : Option (JsMap PendantFile)
  timer : Option Nat
  drains : List (Nat × List PendantFile)
deriving Repr, DecidableEq

/-- A guild nobody has touched: no mapping, no timer. -/
def CoreState.idle : CoreState := ⟨none, none, []⟩

/-- The pending mapping, treating an absent entry as empty (absence and
emptiness are observationally equal in every CollectorManager method). -/
def pendingList (s : CoreState) : JsMap PendantFile :=
  s.pending.getD []

/-- CollectorManager.resetTimer at current time t: clearTimeout on any
existing timer, then setTimeout(processBatch, BATCH_WAIT_MS), so the live
deadline becomes t + W where W = config.UPLOAD.BATCH_WAIT_MS. -/
def resetTimer (W t : Nat) (s : CoreState) : CoreState :=
  { s with timer := some (t + W) }

/-- CollectorManager.handleFileEvent at current time t.  Ensures the guild
mapping exists, computes isReplacement := guildFiles.has(filename), stores
the new record under attachment.name, and resets the debounce timer.  The
returned Bool is the computed isReplacement flag (the value the method logs
and stores; the spec calls it the return value of submit). -/
def handleFileEvent (W t : Nat) (message : MessageIn) (attachment : AttachmentIn)
    (s : CoreState) : Bool × CoreState :=
  let guildFiles := s.pending.getD []
  let filename := attachment.name
  let isReplacement := jsHas guildFiles filename
  let guildFiles₂ := jsSet guildFiles filename
    { messageId := message.id
      filename := filename
      url := attachment.url
      username := message.authorUsername
      messageUrl := message.url
      isReplacement := isReplacement }
  (isReplacement, resetTimer W t { s with pending := some guildFiles₂ })

/-- The record handleFileEvent stores for a given message/attachment pair,
given the isReplacement flag computed at submission time. -/
def submittedEntry (message : MessageIn) (attachment : AttachmentIn)
    (isReplacement : Bool) : PendantFile :=
  { messageId := message.id
    filename := attachment.name
    url := attachment.url
    username := message.authorUsername
    messageUrl := message.url
    isReplacement := isReplacement }

/-- The scan of CollectorManager.handleCancelEvent: first entry (in Map
iteration order) whose messageId equals the replied-to message id. -/
def findCancelTarget (m : JsMap PendantFile) (targetMessageId : String) :
    Option (String × PendantFile) :=
  m.find? (fun p => p.2.messageId == targetMessageId)

/-- CollectorManager.handleCancelEvent at current time t.  Returns early when
the guild has no mapping; otherwise scans for the first entry whose
messageId matches, and if found deletes it and resets the debounce timer.
The returned Option String is the foundFilename the method computes and logs
(the spec calls it the return value of cancel). -/
def handleCancelEvent (W t : Nat) (targetMessageId : String) (s : CoreState) :
    Option String × CoreState :=
  match s.pending with
  | none => (none, s)
  | some guildFiles =>
    match findCancelTarget guildFiles targetMessageId with
    | none => (none, s)
    | some (foundFilename, _) =>
      (some foundFilename,
       resetTimer W t { s with pending := some (jsDelete guildFiles foundFilename) })

/-- The synchronous prefix of CollectorManager.processBatch, invoked at time
t: early return on an absent or empty mapping; otherwise snapshot
filesToProcess := Array.from(guildFiles.values()), guildFiles.clear(), and
this.timers.delete(guildId) - all before the first await.  Returns the new
state and the snapshot handed to the drain pipeline (empty snapshot: the
invocation did nothing). -/
def processBatchCore (t : Nat) (s : CoreState) : CoreState × List PendantFile :=
  match s.pending with
  | none => ({ s with drains := s.drains ++ [(t, [])] }, [])
  | some guildFiles =>
    if guildFiles.isEmpty then
      ({ s with drains := s.drains ++ [(t, [])] }, [])
    else
      let filesToProcess := jsValues guildFiles
      ({ s with pending := some []
                timer := none
                drains := s.drains ++ [(t, filesToProcess)] },
       filesToProcess)

/-- One downloaded file, as built in step 1 of processBatch. -/
structure DownloadEntry where
  buffer : Buffer
  filename : String
  isReplacement : Bool
deriving Repr, DecidableEq

/-- Observable effects of one drain-pipeline run.  archiveEntries: the
(entry name, bytes) list appended to the zip archive, none when no archive
was built; uploadAttempts: how many times GofileService.uploadFile was
called; uploadedLink: the download page URL when the upload succeeded;
notifications: the fileList handed to sendNotificationInNewChannel, one
(filename, isReplacement) pair per manifest line, one list per handoff. -/
structure DrainResult where
  archiveEntries : Option (List (String × Buffer))
  uploadAttempts : Nat
  uploadedLink : Option String
  notifications : List (List (String × Bool))
deriving Repr, DecidableEq

/-- The result of a drain that did nothing at all. -/
def DrainResult.silent : DrainResult := ⟨none, 0, none, []⟩

/-- The awaited body of CollectorManager.processBatch after the snapshot, as
a function of the snapshot and two oracles.  fetch models axios.get on a
file url (none: the download rejected, caught per file, the file dropped);
upload models GofileService.uploadFile on the packed archive (Except.error:
the upload threw, caught by the surrounding try so no notification happens).
Step order as in the source: download all (failure-isolated), keep the
non-null results, abort silently when none survive, append every survivor
to the archive, upload once, then hand the fileList to the notifier. -/
def drainPipeline (fetch : String → Option Buffer)
    (upload : List (String × Buffer) → Except Unit String)
    (filesToProcess : List PendantFile) : DrainResult :=
  let downloads := filesToProcess.map (fun file =>
    (fetch file.url).map (fun b => DownloadEntry.mk b file.filename file.isReplacement))
  let validDownloads := downloads.filterMap id
  if validDownloads.length = 0 then DrainResult.silent
  else
    let archiveEntries := validDownloads.map (fun f => (f.filename, f.buffer))
    match upload archiveEntries with
    | Except.error _ => ⟨some archiveEntries, 1, none, []⟩
    | Except.ok link =>
      let fileList := validDownloads.map (fun f => (f.filename, f.isReplacement))
      ⟨some archiveEntries, 1, some link, [fileList]⟩

/-- Full processBatch at time t: synchronous snapshot-and-clear, then the
drain pipeline on the snapshot. -/
def processBatch (fetch : String → Option Buffer)
    (upload : List (String × Buffer) → Except Unit String)
    (t : Nat) (s : CoreState) : CoreState × DrainResult :=
  let step := processBatchCore t s
  (step.1, drainPipeline fetch upload step.2)

/-- CollectorManager.forceProcess at time t, state part only: clearTimeout
and delete any stored timer, then run processBatch, awaited by the caller. -/
def forceProcess (t : Nat) (s : CoreState) : CoreState :=
  (processBatchCore t { s with timer := none }).1

/-- CollectorManager.forceProcess with the drain-pipeline oracles. -/
def forceProcessFull (fetch : String → Option Buffer)
    (upload : List (String × Buffer) → Except Unit String)
    (t : Nat) (s : CoreState) : CoreState × DrainResult :=
  processBatch fetch upload t { s with timer := none }

/-- Let time advance to t: when the live debounce timer has deadline at or
before t, its callback (processBatch) runs at the deadline before anything
scheduled at t; firing consumes the one-shot timer. -/
def advanceTo (t : Nat) (s : CoreState) : CoreState :=
  match s.timer with
  | some d =>
    if d ≤ t then (processBatchCore d { s with timer := none }).1 else s
  | none => s

/-- External events reaching one guild of the collector. -/
inductive Ev where
  | submit (message : MessageIn) (attachment : AttachmentIn)
  | cancelReply (targetMessageId : String)
  | force
deriving Repr, DecidableEq

/-- Process one timed event: first fire any timer that expired no later than
the event, then dispatch the event to the CollectorManager handler. -/
def stepEv (W : Nat) (s : CoreState) (e : Nat × Ev) : CoreState :=
  let s₁ := advanceTo e.1 s
  match e.2 with
  | Ev.submit message attachment => (handleFileEvent W e.1 message attachment s₁).2
  | Ev.cancelReply targetMessageId => (handleCancelEvent W e.1 targetMessageId s₁).2
  | Ev.force => forceProcess e.1 s₁

/-- Run a time-ordered list of events. -/
def runEvents (W : Nat) (s : CoreState) (es : List (Nat × Ev)) : CoreState :=
  es.foldl (stepEv W) s

/-- Let the remaining live timer (if any) fire at its deadline. -/
def flush (s : CoreState) : CoreState :=
  match s.timer with
  | some d => (processBatchCore d { s with timer := none }).1
  | none => s

/-- A submit event built from a (time, message, attachment) triple. -/
def toSubmit (e : Nat × MessageIn × AttachmentIn) : Nat × Ev :=
  (e.1, Ev.submit e.2.1 e.2.2)

/-! Basic lemmas about the JavaScript Map model. -/

theorem jsHas_iff_mem_keys {β : Type} (m : JsMap β) (k : String) :
    jsHas m k = true ↔ k ∈ m.map (fun p => p.1) := by
  simp [jsHas, List.any_eq_true, List.mem_map]

theorem jsSet_of_has {β : Type} (m : JsMap β) (k : String) (v : β)
    (h : jsHas m k = true) :
    jsSet m k v = m.map (fun p => if p.1 == k then (k, v) else p) := by
  simp [jsSet, h]

theorem jsSet_of_not_has {β : Type} (m : JsMap β) (k : String) (v : β)
    (h : jsHas m k = false) :
    jsSet m k v = m ++ [(k, v)] := by
  simp [jsSet, h]

theorem jsSet_ne_nil {β : Type} (m : JsMap β) (k : String) (v : β) :
    jsSet m k v ≠ [] := by
  by_cases h : jsHas m k = true
  · rw [jsSet_of_has m k v h]
    intro hc
    rw [List.map_eq_nil_iff] at hc
    subst hc
    simp [jsHas] at h
  · rw [jsSet_of_not_has m k v (by simpa using h)]
    simp

theorem keys_jsSet_of_has {β : Type} (m : JsMap β) (k : String) (v : β)
    (h : jsHas m k = true) :
    (jsSet m k v).map (fun p => p.1) = m.map (fun p => p.1) := by
  rw [jsSet_of_has m k v h, List.map_map]
  apply List.map_congr_left
  intro p _
  by_cases hp : p.1 == k
  · simp only [Function.comp_apply, hp, if_pos]
    exact (beq_iff_eq.mp hp).symm
  · simp only [Function.comp_apply, hp]
    simp

theorem mem_jsSet_self {β : Type} (m : JsMap β) (k : String) (v : β) :
    (k, v) ∈ jsSet m k v := by
  by_cases h : jsHas m k = true
  · rw [jsSet_of_has m k v h]
    rw [jsHas_iff_mem_keys, List.mem_map] at h
    obtain ⟨p, hp, he⟩ := h
    refine List.mem_map.mpr ⟨p, hp, ?_⟩
    simp [he]
  · rw [jsSet_of_not_has m k v (by simpa using h)]
    simp

theorem eq_of_mem_jsSet_key {β : Type} (m : JsMap β) (k : String) (v v' : β)
    (hmem : (k, v') ∈ jsSet m k v) : v' = v := by
  by_cases h : jsHas m k = true
  · rw [jsSet_of_has m k v h, List.mem_map] at hmem
    obtain ⟨p, _, he⟩ := hmem
    by_cases hp : p.1 == k
    · rw [if_pos hp] at he
      exact (congrArg Prod.snd he).symm
    · rw [if_neg hp] at he
      exact absurd (beq_iff_eq.mpr (congrArg Prod.fst he)) hp
  · rw [jsSet_of_not_has m k v (by simpa using h), List.mem_append] at hmem
    rcases hmem with hm | hs
    · exfalso
      apply h
      rw [jsHas_iff_mem_keys]
      exact List.mem_map.mpr ⟨(k, v'), hm, rfl⟩
    · simpa using (List.mem_singleton.mp hs)

theorem countP_key_eq_count {β : Type} (m : JsMap β) (k : String) :
    m.countP (fun p => p.1 == k) = (m.map (fun p => p.1)).count k := by
  rw [List.count, List.countP_map]
  rfl

theorem countP_key_jsSet {β : Type} (m : JsMap β) (k : String) (v : β)
    (hkn : keysNodup m) :
    (jsSet m k v).countP (fun p => p.1 == k) = 1 := by
  by_cases h : jsHas m k = true
  · rw [countP_key_eq_count, keys_jsSet_of_has m k v h]
    exact List.count_eq_one_of_mem hkn ((jsHas_iff_mem_keys m k).mp h)
  · rw [jsSet_of_not_has m k v (by simpa using h), List.countP_append]
    have hz : m.countP (fun p => p.1 == k) = 0 := by
      rw [List.countP_eq_zero]
      intro p hp hpk
      apply h
      rw [jsHas_iff_mem_keys]
      exact List.mem_map.mpr ⟨p, hp, beq_iff_eq.mp hpk⟩
    simp [hz]

theorem keysNodup_jsSet {β : Type} (m : JsMap β) (k : String) (v : β)
    (hkn : keysNodup m) : keysNodup (jsSet m k v) := by
  by_cases h : jsHas m k = true
  · unfold keysNodup
    rw [keys_jsSet_of_has m k v h]
    exact hkn
  · unfold keysNodup
    rw [jsSet_of_not_has m k v (by simpa using h), List.map_append]
    simp only [List.map_cons, List.map_nil]
    rw [List.nodup_append]
    refine ⟨hkn, List.nodup_singleton k, ?_⟩
    intro a ha hb
    rw [List.mem_singleton] at hb
    subst hb
    exact h ((jsHas_iff_mem_keys m a).mpr ha)

theorem keysNodup_jsDelete {β : Type} (m : JsMap β) (k : String)
    (hkn : keysNodup m) : keysNodup (jsDelete m k) := by
  unfold keysNodup at hkn ⊢
  exact ((List.filter_sublist m).map (fun p => p.1)).nodup hkn

theorem keysNodup_nil {β : Type} : keysNodup ([] : JsMap β) := by
  simp [keysNodup]

/-- The validDownloads list of processBatch: one DownloadEntry per snapshot
file whose download succeeded, in snapshot order. -/
def survivors (fetch : String → Option Buffer) (snap : List PendantFile) :
    List DownloadEntry :=
  snap.filterMap (fun file => (fetch file.url).map
    (fun b => DownloadEntry.mk b file.filename file.isReplacement))

/-- The zip entries processBatch appends: (filename, bytes) per survivor. -/
def archiveOf (fetch : String → Option Buffer) (snap : List PendantFile) :
    List (String × Buffer) :=
  (survivors fetch snap).map (fun d => (d.filename, d.buffer))

/-- The fileList processBatch hands to the notifier: (filename,
isReplacement) per survivor. -/
def manifestOf (fetch : String → Option Buffer) (snap : List PendantFile) :
    List (String × Bool) :=
  (survivors fetch snap).map (fun d => (d.filename, d.isReplacement))

theorem drainPipeline_eq (fetch : String → Option Buffer)
    (upload : List (String × Buffer) → Except Unit String)
    (snap : List PendantFile) :
    drainPipeline fetch upload snap =
      if (survivors fetch snap).length = 0 then DrainResult.silent
      else match upload (archiveOf fetch snap) with
        | Except.error _ => ⟨some (archiveOf fetch snap), 1, none, []⟩
        | Except.ok link =>
          ⟨some (archiveOf fetch snap), 1, some link, [manifestOf fetch snap]⟩ := by
  simp only [drainPipeline, survivors, archiveOf, manifestOf, List.filterMap_map]
  rfl

theorem survivors_eq_nil (fetch : String → Option Buffer) (snap : List PendantFile)
    (hall : ∀ file ∈ snap, fetch file.url = none) :
    survivors fetch snap = [] := by
  rw [survivors, List.filterMap_eq_nil_iff]
  intro file hf
  rw [hall file hf]
  rfl

theorem survivors_map_eq {α : Type} (fetch : String → Option Buffer)
    (snap : List PendantFile) (g : DownloadEntry → α) (g' : PendantFile → α)
    (hg : ∀ file b, g (DownloadEntry.mk b file.filename file.isReplacement) = g' file) :
    (survivors fetch snap).map g =
      (snap.filter (fun file => (fetch file.url).isSome)).map g' := by
  induction snap with
  | nil => rfl
  | cons file rest ih =>
    cases hf : fetch file.url with
    | none => simpa [survivors, List.filterMap_cons, List.filter_cons, hf] using ih
    | some b =>
      simpa [survivors, List.filterMap_cons, List.filter_cons, hf, hg file b] using ih

theorem survivors_cons (fetch : String → Option Buffer) (file : PendantFile)
    (rest : List PendantFile) :
    survivors fetch (file :: rest) =
      match fetch file.url with
      | none => survivors fetch rest
      | some b =>
        DownloadEntry.mk b file.filename file.isReplacement :: survivors fetch rest := by
  rw [survivors, List.filterMap_cons]
  cases fetch file.url <;> rfl

theorem survivors_length_add (fetch : String → Option Buffer)
    (snap : List PendantFile) :
    (survivors fetch snap).length +
      (snap.filter (fun file => (fetch file.url).isNone)).length = snap.length := by
  induction snap with
  | nil => rfl
  | cons file rest ih =>
    rw [survivors_cons, List.filter_cons]
    cases hf : fetch file.url with
    | none =>
      simp only [hf, Option.isNone_none, if_pos, List.length_cons]
      omega
    | some b =>
      simp only [hf, Option.isNone_some, Bool.false_eq_true, if_neg,
        List.length_cons, not_false_iff]
      omega

theorem processBatchCore_of_nonempty (t : Nat) (s : CoreState)
    (gf : JsMap PendantFile) (hp : s.pending = some gf) (hne : gf ≠ []) :
    processBatchCore t s =
      ({ s with pending := some []
                timer := none
                drains := s.drains ++ [(t, jsValues gf)] },
       jsValues gf) := by
  simp [processBatchCore, hp, List.isEmpty_iff, hne]

theorem pendingList_processBatch_eq_nil (fetch : String → Option Buffer)
    (upload : List (String × Buffer) → Except Unit String)
    (t : Nat) (s : CoreState) :
    pendingList (processBatch fetch upload t s).1 = [] := by
  cases hp : s.pending with
  | none => simp [processBatch, processBatchCore, hp, pendingList]
  | some gf =>
    by_cases hne : gf = []
    · subst hne
      simp [processBatch, processBatchCore, hp, pendingList]
    · rw [processBatch, processBatchCore_of_nonempty t s gf hp hne]
      simp [pendingList]

/-- Unfolding of handleFileEvent as a record update. -/
theorem handleFileEvent_eq (W t : Nat) (message : MessageIn)
    (attachment : AttachmentIn) (s : CoreState) :
    handleFileEvent W t message attachment s =
      (jsHas (pendingList s) attachment.name,
       { s with
         pending := some (jsSet (pendingList s) attachment.name
           (submittedEntry message attachment (jsHas (pendingList s) attachment.name)))
         timer := some (t + W) }) := rfl

/-!
Claim theorems.
-/

/-- C3: for every group, submitting a file whose filename already exists in
the pending mapping fully replaces the older entry: the pending set keeps
exactly one entry for that name, that entry carries the second submission
message id and attachment url, and the returned isReplacement flag is true
exactly when an entry with that filename already existed at submission time
(false otherwise).  The handler is a total function: it has no error
conditions. -/
theorem submit_dedup_replaces (W t : Nat) (message : MessageIn)
    (attachment : AttachmentIn) (s : CoreState)
    (hkn : keysNodup (pendingList s)) :
    ((handleFileEvent W t message attachment s).1 = true ↔
      attachment.name ∈ (pendingList s).map (fun p => p.1)) ∧
    (pendingList (handleFileEvent W t message attachment s).2).countP
      (fun p => p.1 == attachment.name) = 1 ∧
    (attachment.name,
      submittedEntry message attachment (handleFileEvent W t message attachment s).1) ∈
      pendingList (handleFileEvent W t message attachment s).2 ∧
    (∀ v, (attachment.name, v) ∈ pendingList (handleFileEvent W t message attachment s).2 →
      v = submittedEntry message attachment (handleFileEvent W t message attachment s).1) := by
  rw [handleFileEvent_eq]
  refine ⟨jsHas_iff_mem_keys _ _, ?_, ?_, ?_⟩
  · exact countP_key_jsSet _ _ _ hkn
  · exact mem_jsSet_self _ _ _
  · intro v hv
    exact eq_of_mem_jsSet_key _ _ _ _ hv

/-- Witness for C3 at a concrete replacement scenario: the mapping already
holds a file named a.jar, and a second a.jar from a different message is
submitted. -/
theorem submit_dedup_replaces_witness :
    keysNodup (pendingList
      ⟨some [("a.jar", ⟨"m1", "a.jar", "u1", "alice", "l1", false⟩)], none, []⟩) ∧
    ((handleFileEvent 30000 5 ⟨"m2", "bob", "l2"⟩ ⟨"a.jar", "u2"⟩
      ⟨some [("a.jar", ⟨"m1", "a.jar", "u1", "alice", "l1", false⟩)], none, []⟩).1 = true ↔
      "a.jar" ∈ (pendingList
        ⟨some [("a.jar", ⟨"m1", "a.jar", "u1", "alice", "l1", false⟩)], none, []⟩).map
          (fun p => p.1)) := by
  refine ⟨by decide, ?_⟩
  exact (submit_dedup_replaces 30000 5 ⟨"m2", "bob", "l2"⟩ ⟨"a.jar", "u2"⟩
    ⟨some [("a.jar", ⟨"m1", "a.jar", "u1", "alice", "l1", false⟩)], none, []⟩ (by decide)).1

/-- C10: filename deduplication is case-sensitive: submitting A.jar and then
a.jar in the same window yields two distinct pending entries, each with
isReplacement = false, instead of a case-insensitive replacement. -/
theorem dedup_case_sensitive (W t₁ t₂ : Nat) (m₁ m₂ : MessageIn) (u₁ u₂ : String) :
    (handleFileEvent W t₁ m₁ ⟨"A.jar", u₁⟩ CoreState.idle).1 = false ∧
    (handleFileEvent W t₂ m₂ ⟨"a.jar", u₂⟩
        (handleFileEvent W t₁ m₁ ⟨"A.jar", u₁⟩ CoreState.idle).2).1 = false ∧
    pendingList (handleFileEvent W t₂ m₂ ⟨"a.jar", u₂⟩
        (handleFileEvent W t₁ m₁ ⟨"A.jar", u₁⟩ CoreState.idle).2).2 =
      [("A.jar", submittedEntry m₁ ⟨"A.jar", u₁⟩ false),
       ("a.jar", submittedEntry m₂ ⟨"a.jar", u₂⟩ false)] := by
  have hne : (("a.jar" : String) == "A.jar") = false := by decide
  refine ⟨rfl, ?_, ?_⟩ <;>
    simp [handleFileEvent_eq, pendingList, CoreState.idle, jsSet, jsHas,
      submittedEntry, hne]

/-- C7: a drain invoked on an empty or absent pending mapping, or whose
every fetch fails, produces zero side effects: no archive is built, no
upload is attempted, no notification handoff happens; the drain completes
(it is not an error) and the group is left Idle (empty mapping, no live
timer). -/
theorem empty_drain_silent (fetch : String → Option Buffer)
    (upload : List (String × Buffer) → Except Unit String) (t : Nat)
    (s : CoreState)
    (hall : ∀ file ∈ jsValues (pendingList s), fetch file.url = none) :
    (forceProcessFull fetch upload t s).2.archiveEntries = none ∧
    (forceProcessFull fetch upload t s).2.uploadAttempts = 0 ∧
    (forceProcessFull fetch upload t s).2.uploadedLink = none ∧
    (forceProcessFull fetch upload t s).2.notifications = [] ∧
    pendingList (forceProcessFull fetch upload t s).1 = [] ∧
    (forceProcessFull fetch upload t s).1.timer = none := by
  have hsil : ∀ snap : List PendantFile, (∀ file ∈ snap, fetch file.url = none) →
      drainPipeline fetch upload snap = DrainResult.silent := by
    intro snap hs
    rw [drainPipeline_eq, if_pos]
    rw [survivors_eq_nil fetch snap hs]
    rfl
  cases hp : s.pending with
  | none =>
    have : forceProcessFull fetch upload t s =
        ({ s with timer := none, drains := s.drains ++ [(t, [])] },
         drainPipeline fetch upload []) := by
      simp [forceProcessFull, processBatch, processBatchCore, hp]
    rw [this, hsil [] (by intro file hf; cases hf)]
    exact ⟨rfl, rfl, rfl, rfl, by simp [pendingList, hp], rfl⟩
  | some gf =>
    by_cases hne : gf = []
    · subst hne
      have : forceProcessFull fetch upload t s =
          ({ s with timer := none, drains := s.drains ++ [(t, [])] },
           drainPipeline fetch upload []) := by
        simp [forceProcessFull, processBatch, processBatchCore, hp]
      rw [this, hsil [] (by intro file hf; cases hf)]
      exact ⟨rfl, rfl, rfl, rfl, by simp [pendingList, hp], rfl⟩
    · have hvals : ∀ file ∈ jsValues gf, fetch file.url = none := by
        intro file hf
        exact hall file (by simpa [pendingList, hp] using hf)
      have : forceProcessFull fetch upload t s =
          ({ s with pending := some []
                    timer := none
                    drains := s.drains ++ [(t, jsValues gf)] },
           drainPipeline fetch upload (jsValues gf)) := by
        rw [forceProcessFull, processBatch,
          processBatchCore_of_nonempty t { s with timer := none } gf (by simpa using hp) hne]
      rw [this, hsil (jsValues gf) hvals]
      exact ⟨rfl, rfl, rfl, rfl, by simp [pendingList], rfl⟩

/-- Witness for C7 at a concrete one-file state whose only fetch fails. -/
theorem empty_drain_silent_witness :
    (∀ file ∈ jsValues (pendingList
      (⟨some [("c.jar", ⟨"m9", "c.jar", "uc", "erin", "lc", false⟩)], some 77, []⟩ :
        CoreState)), (fun _ : String => (none : Option Buffer)) file.url = none) ∧
    (forceProcessFull (fun _ => none) (fun _ => Except.ok "link") 12
      ⟨some [("c.jar", ⟨"m9", "c.jar", "uc", "erin", "lc", false⟩)], some 77, []⟩).2 =
      DrainResult.silent ∧
    pendingList (forceProcessFull (fun _ => none) (fun _ => Except.ok "link") 12
      ⟨some [("c.jar", ⟨"m9", "c.jar", "uc", "erin", "lc", false⟩)], some 77, []⟩).1 = [] := by
  have h := empty_drain_silent (fun _ => none) (fun _ => Except.ok "link") 12
    ⟨some [("c.jar", ⟨"m9", "c.jar", "uc", "erin", "lc", false⟩)], some 77, []⟩
    (by intro file _; rfl)
  refine ⟨by intro file _; rfl, ?_, h.2.2.2.2.1⟩
  have hc : (forceProcessFull (fun _ => none) (fun _ => Except.ok "link") 12
      ⟨some [("c.jar", ⟨"m9", "c.jar", "uc", "erin", "lc", false⟩)], some 77, []⟩).2 =
      ⟨(forceProcessFull (fun _ => none) (fun _ => Except.ok "link") 12
        ⟨some [("c.jar", ⟨"m9", "c.jar", "uc", "erin", "lc", false⟩)], some 77, []⟩).2.archiveEntries,
       (forceProcessFull (fun _ => none) (fun _ => Except.ok "link") 12
        ⟨some [("c.jar", ⟨"m9", "c.jar", "uc", "erin", "lc", false⟩)], some 77, []⟩).2.uploadAttempts,
       (forceProcessFull (fun _ => none) (fun _ => Except.ok "link") 12
        ⟨some [("c.jar", ⟨"m9", "c.jar", "uc", "erin", "lc", false⟩)], some 77, []⟩).2.uploadedLink,
       (forceProcessFull (fun _ => none) (fun _ => Except.ok "link") 12
        ⟨some [("c.jar", ⟨"m9", "c.jar", "uc", "erin", "lc", false⟩)], some 77, []⟩).2.notifications⟩ := rfl
  rw [hc, h.1, h.2.1, h.2.2.1, h.2.2.2.1]
  rfl

/-- C5: for every drain whose snapshot has at least one surviving fetch, the
pipeline performs exactly one upload; when that upload succeeds there is
exactly one notification handoff, covering exactly the surviving subset of
the snapshot; when it fails the drain is abandoned: no notification, no
second upload attempt, and (last conjunct) no files are re-queued - after
any processBatch the pending mapping is empty. -/
theorem drain_upload_once (fetch : String → Option Buffer)
    (upload : List (String × Buffer) → Except Unit String)
    (snap : List PendantFile) (hsome : survivors fetch snap ≠ []) :
    (drainPipeline fetch upload snap).uploadAttempts = 1 ∧
    (∀ link, upload (archiveOf fetch snap) = Except.ok link →
      (drainPipeline fetch upload snap).notifications = [manifestOf fetch snap] ∧
      (drainPipeline fetch upload snap).uploadedLink = some link) ∧
    (∀ e, upload (archiveOf fetch snap) = Except.error e →
      (drainPipeline fetch upload snap).notifications = [] ∧
      (drainPipeline fetch upload snap).uploadedLink = none ∧
      (drainPipeline fetch upload snap).uploadAttempts = 1) ∧
    (∀ (t : Nat) (s : CoreState),
      pendingList (processBatch fetch upload t s).1 = []) := by
  have hlen : ¬ (survivors fetch snap).length = 0 := by
    simpa [List.length_eq_zero] using hsome
  rw [drainPipeline_eq, if_neg hlen]
  refine ⟨?_, ?_, ?_, fun t s => pendingList_processBatch_eq_nil fetch upload t s⟩
  · cases upload (archiveOf fetch snap) <;> rfl
  · intro link hu
    rw [hu]
    exact ⟨rfl, rfl⟩
  · intro e hu
    rw [hu]
    exact ⟨rfl, rfl, rfl⟩

/-- Witness for C5: a two-file snapshot with both fetches succeeding, run
once against a succeeding upload and once against a failing one. -/
theorem drain_upload_once_witness :
    survivors (fun u => some [u.length]) [⟨"m1", "a.jar", "ua", "al", "l1", false⟩,
      ⟨"m2", "b.jar", "ub", "bo", "l2", true⟩] ≠ [] ∧
    (drainPipeline (fun u => some [u.length]) (fun _ => Except.ok "dl")
      [⟨"m1", "a.jar", "ua", "al", "l1", false⟩,
       ⟨"m2", "b.jar", "ub", "bo", "l2", true⟩]).notifications =
      [manifestOf (fun u => some [u.length]) [⟨"m1", "a.jar", "ua", "al", "l1", false⟩,
        ⟨"m2", "b.jar", "ub", "bo", "l2", true⟩]] ∧
    (drainPipeline (fun u => some [u.length]) (fun _ => Except.error ())
      [⟨"m1", "a.jar", "ua", "al", "l1", false⟩,
       ⟨"m2", "b.jar", "ub", "bo", "l2", true⟩]).notifications = [] ∧
    (drainPipeline (fun u => some [u.length]) (fun _ => Except.error ())
      [⟨"m1", "a.jar", "ua", "al", "l1", false⟩,
       ⟨"m2", "b.jar", "ub", "bo", "l2", true⟩]).uploadAttempts = 1 := by
  have hok := drain_upload_once (fun u => some [u.length]) (fun _ => Except.ok "dl")
    [⟨"m1", "a.jar", "ua", "al", "l1", false⟩,
     ⟨"m2", "b.jar", "ub", "bo", "l2", true⟩] (by decide)
  have herr := drain_upload_once (fun u => some [u.length]) (fun _ => Except.error ())
    [⟨"m1", "a.jar", "ua", "al", "l1", false⟩,
     ⟨"m2", "b.jar", "ub", "bo", "l2", true⟩] (by decide)
  refine ⟨by decide, (hok.2.1 "dl" rfl).1, ?_, ?_⟩
  · exact (herr.2.2.1 () rfl).1
  · exact (herr.2.2.1 () rfl).2.2

/-- C4: each fetch of a drain is failure-isolated: the archive contains
exactly the entries of the surviving fetches (in snapshot order) and the
manifest handed to the notifier lists exactly the surviving filenames with
their isReplacement flags; in particular a 3-file snapshot in which exactly
one fetch fails yields an archive of exactly 2 entries and a manifest of
exactly 2 lines. -/
theorem fetch_failure_isolated (fetch : String → Option Buffer)
    (upload : List (String × Buffer) → Except Unit String)
    (snap : List PendantFile) (link : String)
    (hsome : survivors fetch snap ≠ [])
    (hup : upload (archiveOf fetch snap) = Except.ok link) :
    (drainPipeline fetch upload snap).archiveEntries = some (archiveOf fetch snap) ∧
    (drainPipeline fetch upload snap).notifications = [manifestOf fetch snap] ∧
    manifestOf fetch snap =
      (snap.filter (fun file => (fetch file.url).isSome)).map
        (fun file => (file.filename, file.isReplacement)) ∧
    (survivors fetch snap).length +
      (snap.filter (fun file => (fetch file.url).isNone)).length = snap.length ∧
    (snap.length = 3 → (snap.filter (fun file => (fetch file.url).isNone)).length = 1 →
      (archiveOf fetch snap).length = 2 ∧ (manifestOf fetch snap).length = 2) := by
  have hlen : ¬ (survivors fetch snap).length = 0 := by
    simpa [List.length_eq_zero] using hsome
  have hpipe : drainPipeline fetch upload snap =
      ⟨some (archiveOf fetch snap), 1, some link, [manifestOf fetch snap]⟩ := by
    rw [drainPipeline_eq, if_neg hlen, hup]
  have hcount := survivors_length_add fetch snap
  refine ⟨by rw [hpipe], by rw [hpipe], ?_, hcount, ?_⟩
  · exact survivors_map_eq fetch snap _ _ (fun file b => rfl)
  · intro h3 h1
    have hs : (survivors fetch snap).length = 2 := by omega
    constructor
    · rw [archiveOf, List.length_map, hs]
    · rw [manifestOf, List.length_map, hs]

/-- Witness for C4: a 3-file snapshot whose middle fetch fails; the other
two files survive into the archive and the manifest. -/
theorem fetch_failure_isolated_witness :
    (drainPipeline (fun u => if u == "dead" then none else some [7])
      (fun _ => Except.ok "dl3")
      [⟨"m1", "a.jar", "u1", "al", "l1", false⟩,
       ⟨"m2", "b.jar", "dead", "bo", "l2", false⟩,
       ⟨"m3", "c.jar", "u3", "cy", "l3", true⟩]).notifications =
      [[("a.jar", false), ("c.jar", true)]] ∧
    (archiveOf (fun u => if u == "dead" then none else some [7])
      [⟨"m1", "a.jar", "u1", "al", "l1", false⟩,
       ⟨"m2", "b.jar", "dead", "bo", "l2", false⟩,
       ⟨"m3", "c.jar", "u3", "cy", "l3", true⟩]).length = 2 := by
  have h := fetch_failure_isolated (fun u => if u == "dead" then none else some [7])
    (fun _ => Except.ok "dl3")
    [⟨"m1", "a.jar", "u1", "al", "l1", false⟩,
     ⟨"m2", "b.jar", "dead", "bo", "l2", false⟩,
     ⟨"m3", "c.jar", "u3", "cy", "l3", true⟩] "dl3" (by decide) rfl
  refine ⟨?_, (h.2.2.2.2 (by decide) (by decide)).1⟩
  rw [h.2.1]
  decide

/-- C1: a drain on a non-empty pending mapping snapshots exactly the pending
files and clears the mapping (and the stored timer) before any fallible
download or upload runs: the post-drain collector state is the same whatever
the fetch/upload oracles do, the pipeline result is a function of the
snapshot alone, and a file submitted after the snapshot is not part of the
in-flight drain - it starts a fresh window (fresh one-element mapping, fresh
full-length timer) and leaves the logged drain untouched. -/
theorem drain_snapshot_atomic (fetch fetch' : String → Option Buffer)
    (upload upload' : List (String × Buffer) → Except Unit String)
    (W t t' : Nat) (message : MessageIn) (attachment : AttachmentIn)
    (s : CoreState) (gf : JsMap PendantFile)
    (hp : s.pending = some gf) (hne : gf ≠ []) :
    (processBatchCore t s).2 = jsValues gf ∧
    (processBatch fetch upload t s).1.pending = some [] ∧
    (processBatch fetch upload t s).1.timer = none ∧
    (processBatch fetch upload t s).1 = (processBatch fetch' upload' t s).1 ∧
    (processBatch fetch upload t s).2 = drainPipeline fetch upload (jsValues gf) ∧
    (handleFileEvent W t' message attachment (processBatch fetch upload t s).1).1 = false ∧
    pendingList (handleFileEvent W t' message attachment
        (processBatch fetch upload t s).1).2 =
      [(attachment.name, submittedEntry message attachment false)] ∧
    (handleFileEvent W t' message attachment (processBatch fetch upload t s).1).2.timer =
      some (t' + W) ∧
    (handleFileEvent W t' message attachment (processBatch fetch upload t s).1).2.drains =
      (processBatch fetch upload t s).1.drains := by
  have hcore := processBatchCore_of_nonempty t s gf hp hne
  have hfull : processBatch fetch upload t s =
      ({ s with pending := some []
                timer := none
                drains := s.drains ++ [(t, jsValues gf)] },
       drainPipeline fetch upload (jsValues gf)) := by
    rw [processBatch, hcore]
  have hfull' : processBatch fetch' upload' t s =
      ({ s with pending := some []
                timer := none
                drains := s.drains ++ [(t, jsValues gf)] },
       drainPipeline fetch' upload' (jsValues gf)) := by
    rw [processBatch, hcore]
  rw [hfull, hfull', hcore]
  refine ⟨rfl, rfl, rfl, rfl, rfl, rfl, ?_, rfl, rfl⟩
  simp [handleFileEvent_eq, pendingList, jsSet, jsHas, submittedEntry]

/-- Witness for C1: a one-file mapping drained under a failing upload, then
a fresh submission of a different file. -/
theorem drain_snapshot_atomic_witness :
    (processBatchCore 20
      ⟨some [("d.jar", ⟨"m4", "d.jar", "ud", "fay", "ld", false⟩)], some 25, []⟩).2 =
      jsValues [("d.jar", ⟨"m4", "d.jar", "ud", "fay", "ld", false⟩)] ∧
    (processBatch (fun _ => some [1]) (fun _ => Except.error ()) 20
      ⟨some [("d.jar", ⟨"m4", "d.jar", "ud", "fay", "ld", false⟩)], some 25, []⟩).1.pending =
      some [] ∧
    pendingList (handleFileEvent 30000 21 ⟨"m5", "gil", "le"⟩ ⟨"e.jar", "ue"⟩
      (processBatch (fun _ => some [1]) (fun _ => Except.error ()) 20
        ⟨some [("d.jar", ⟨"m4", "d.jar", "ud", "fay", "ld", false⟩)], some 25, []⟩).1).2 =
      [("e.jar", submittedEntry ⟨"m5", "gil", "le"⟩ ⟨"e.jar", "ue"⟩ false)] := by
  have h := drain_snapshot_atomic (fun _ => some [1]) (fun _ => some [2])
    (fun _ => Except.error ()) (fun _ => Except.ok "x") 30000 20 21
    ⟨"m5", "gil", "le"⟩ ⟨"e.jar", "ue"⟩
    ⟨some [("d.jar", ⟨"m4", "d.jar", "ud", "fay", "ld", false⟩)], some 25, []⟩
    [("d.jar", ⟨"m4", "d.jar", "ud", "fay", "ld", false⟩)] rfl (by decide)
  exact ⟨h.1, h.2.1, h.2.2.2.2.2.2.1⟩

/-- C6: forceDrain cancels any live debounce timer for the group and
immediately runs the drain procedure the timer would have run; on an empty
or absent mapping it is a no-op that still resolves (silent result, mapping
untouched); and in the submit-then-force scenario the drain happens at the
force time, before the cancelled deadline, after which letting any amount
of time pass fires no second drain. -/
theorem force_drain_spec (fetch : String → Option Buffer)
    (upload : List (String × Buffer) → Except Unit String)
    (W t₀ t₁ T d : Nat) (message : MessageIn) (attachment : AttachmentIn)
    (s : CoreState) :
    (s.timer = some d → advanceTo d s = forceProcess d s) ∧
    ((s.pending = none ∨ s.pending = some []) →
      (forceProcessFull fetch upload t₁ s).1.pending = s.pending ∧
      (forceProcessFull fetch upload t₁ s).1.timer = none ∧
      (forceProcessFull fetch upload t₁ s).2 = DrainResult.silent) ∧
    (t₀ ≤ t₁ → t₁ < t₀ + W →
      (stepEv W (stepEv W CoreState.idle (t₀, Ev.submit message attachment))
          (t₁, Ev.force)).drains =
        [(t₁, [submittedEntry message attachment false])] ∧
      (stepEv W (stepEv W CoreState.idle (t₀, Ev.submit message attachment))
          (t₁, Ev.force)).timer = none ∧
      advanceTo T (stepEv W (stepEv W CoreState.idle
          (t₀, Ev.submit message attachment)) (t₁, Ev.force)) =
        stepEv W (stepEv W CoreState.idle (t₀, Ev.submit message attachment))
          (t₁, Ev.force) ∧
      flush (stepEv W (stepEv W CoreState.idle (t₀, Ev.submit message attachment))
          (t₁, Ev.force)) =
        stepEv W (stepEv W CoreState.idle (t₀, Ev.submit message attachment))
          (t₁, Ev.force)) := by
  refine ⟨?_, ?_, ?_⟩
  · intro ht
    rw [advanceTo, ht]
    simp [forceProcess]
  · intro hp
    rcases hp with hp | hp
    · constructor
      · simp [forceProcessFull, processBatch, processBatchCore, hp]
      · constructor
        · simp [forceProcessFull, processBatch, processBatchCore, hp]
        · have : (forceProcessFull fetch upload t₁ s).2 =
              drainPipeline fetch upload [] := by
            simp [forceProcessFull, processBatch, processBatchCore, hp]
          rw [this]
          rfl
    · constructor
      · simp [forceProcessFull, processBatch, processBatchCore, hp]
      · constructor
        · simp [forceProcessFull, processBatch, processBatchCore, hp]
        · have : (forceProcessFull fetch upload t₁ s).2 =
              drainPipeline fetch upload [] := by
            simp [forceProcessFull, processBatch, processBatchCore, hp]
          rw [this]
          rfl
  · intro hle hlt
    have hs₁ : stepEv W CoreState.idle (t₀, Ev.submit message attachment) =
        ⟨some [(attachment.name, submittedEntry message attachment false)],
         some (t₀ + W), []⟩ := rfl
    have hadv : advanceTo t₁
        (⟨some [(attachment.name, submittedEntry message attachment false)],
          some (t₀ + W), []⟩ : CoreState) =
        ⟨some [(attachment.name, submittedEntry message attachment false)],
         some (t₀ + W), []⟩ := by
      rw [advanceTo]
      simp only [if_neg (by omega : ¬ t₀ + W ≤ t₁)]
    have hs₂ : stepEv W (stepEv W CoreState.idle (t₀, Ev.submit message attachment))
        (t₁, Ev.force) =
        ⟨some [], none, [(t₁, [submittedEntry message attachment false])]⟩ := by
      rw [hs₁]
      show forceProcess t₁ (advanceTo t₁ _) = _
      rw [hadv, forceProcess,
        processBatchCore_of_nonempty t₁ _ [(attachment.name,
          submittedEntry message attachment false)] rfl (by simp)]
      rfl
    rw [hs₂]
    exact ⟨rfl, rfl, rfl, rfl⟩

/-- Witness for C6: d and the live-timer state for the first part, an idle
group for the no-op part, and the concrete submit(0)/force(10) scenario with
the original deadline at 30000 passing afterwards. -/
theorem force_drain_spec_witness :
    advanceTo 50 (⟨some [("f.jar", ⟨"m6", "f.jar", "uf", "hal", "lf", false⟩)],
        some 50, []⟩ : CoreState) =
      forceProcess 50 ⟨some [("f.jar", ⟨"m6", "f.jar", "uf", "hal", "lf", false⟩)],
        some 50, []⟩ ∧
    (forceProcessFull (fun _ => some [3]) (fun _ => Except.ok "y") 10
      CoreState.idle).2 = DrainResult.silent ∧
    (stepEv 30000 (stepEv 30000 CoreState.idle
        (0, Ev.submit ⟨"m8", "ivy", "l8"⟩ ⟨"g.jar", "ug"⟩)) (10, Ev.force)).drains =
      [(10, [submittedEntry ⟨"m8", "ivy", "l8"⟩ ⟨"g.jar", "ug"⟩ false])] ∧
    advanceTo 30000 (stepEv 30000 (stepEv 30000 CoreState.idle
        (0, Ev.submit ⟨"m8", "ivy", "l8"⟩ ⟨"g.jar", "ug"⟩)) (10, Ev.force)) =
      stepEv 30000 (stepEv 30000 CoreState.idle
        (0, Ev.submit ⟨"m8", "ivy", "l8"⟩ ⟨"g.jar", "ug"⟩)) (10, Ev.force) := by
  have h₁ := force_drain_spec (fun _ => some [3]) (fun _ => Except.ok "y")
    30000 0 10 30000 50 ⟨"m8", "ivy", "l8"⟩ ⟨"g.jar", "ug"⟩
    ⟨some [("f.jar", ⟨"m6", "f.jar", "uf", "hal", "lf", false⟩)], some 50, []⟩
  have h₂ := force_drain_spec (fun _ => some [3]) (fun _ => Except.ok "y")
    30000 0 10 30000 50 ⟨"m8", "ivy", "l8"⟩ ⟨"g.jar", "ug"⟩ CoreState.idle
  have h₃ := h₂.2.2 (by omega) (by omega)
  exact ⟨h₁.1 rfl, (h₂.2.1 (Or.inl rfl)).2.2, h₃.1, h₃.2.2.1⟩

/-- In a run of submissions whose times are nondecreasing and each strictly
inside the previous debounce window, the armed timer never fires: the
pending mapping stays non-empty, no drain is logged, and the deadline always
tracks the latest submission. -/
theorem run_submits_no_fire (W : Nat) (es : List (Nat × MessageIn × AttachmentIn)) :
    ∀ (s : CoreState) (tPrev : Nat) (gf : JsMap PendantFile),
      s.pending = some gf → gf ≠ [] → s.timer = some (tPrev + W) →
      List.Chain (fun a b => a ≤ b ∧ b < a + W) tPrev (es.map (fun e => e.1)) →
      ∃ gf₂ : JsMap PendantFile, gf₂ ≠ [] ∧
        runEvents W s (es.map toSubmit) =
          { pending := some gf₂
            timer := some ((es.map (fun e => e.1)).getLastD tPrev + W)
            drains := s.drains } := by
  induction es with
  | nil =>
    intro s tPrev gf hp hne ht _
    refine ⟨gf, hne, ?_⟩
    cases s with
    | mk pending timer drains =>
      simp only at hp ht
      simp [runEvents, hp, ht]
  | cons e rest ih =>
    intro s tPrev gf hp hne ht hchain
    rw [List.map_cons, List.chain_cons] at hchain
    obtain ⟨⟨hle, hlt⟩, hchain'⟩ := hchain
    have hadv : advanceTo e.1 s = s := by
      rw [advanceTo, ht]
      simp only [if_neg (by omega : ¬ tPrev + W ≤ e.1)]
    have hstep : stepEv W s (toSubmit e) =
        { s with
          pending := some (jsSet gf e.2.2.name
            (submittedEntry e.2.1 e.2.2 (jsHas gf e.2.2.name)))
          timer := some (e.1 + W) } := by
      show (handleFileEvent W e.1 e.2.1 e.2.2 (advanceTo e.1 s)).2 = _
      rw [hadv, handleFileEvent_eq]
      simp [pendingList, hp]
    obtain ⟨gf₂, hne₂, hrun⟩ := ih
      { s with
        pending := some (jsSet gf e.2.2.name
          (submittedEntry e.2.1 e.2.2 (jsHas gf e.2.2.name)))
        timer := some (e.1 + W) }
      e.1 _ rfl (jsSet_ne_nil _ _ _) rfl hchain'
    refine ⟨gf₂, hne₂, ?_⟩
    simp only [List.map_cons]
    rw [runEvents, List.foldl_cons, hstep, List.getLastD_cons]
    rw [runEvents] at hrun
    exact hrun

/-- C2: every submission re-arms the group debounce timer for the full wait
duration from the submission time; hence for a non-empty sequence of
submissions whose inter-arrival gaps are all strictly less than the window
length, exactly one drain fires, and it fires one window length after the
last submission (not the first). -/
theorem debounce_single_drain (W t₀ : Nat) (m₀ : MessageIn) (a₀ : AttachmentIn)
    (rest : List (Nat × MessageIn × AttachmentIn))
    (hchain : List.Chain (fun a b => a ≤ b ∧ b < a + W) t₀ (rest.map (fun e => e.1))) :
    (∀ (s : CoreState) (t : Nat) (msg : MessageIn) (att : AttachmentIn),
      (handleFileEvent W t msg att s).2.timer = some (t + W)) ∧
    ∃ snap : List PendantFile, snap ≠ [] ∧
      flush (runEvents W CoreState.idle (((t₀, m₀, a₀) :: rest).map toSubmit)) =
        { pending := some []
          timer := none
          drains := [((rest.map (fun e => e.1)).getLastD t₀ + W, snap)] } := by
  constructor
  · intro s t msg att
    rw [handleFileEvent_eq]
  · have hstep0 : stepEv W CoreState.idle (toSubmit (t₀, m₀, a₀)) =
        ⟨some [(a₀.name, submittedEntry m₀ a₀ false)], some (t₀ + W), []⟩ := rfl
    obtain ⟨gf₂, hne₂, hrun⟩ := run_submits_no_fire W rest
      ⟨some [(a₀.name, submittedEntry m₀ a₀ false)], some (t₀ + W), []⟩ t₀
      [(a₀.name, submittedEntry m₀ a₀ false)] rfl (by simp) rfl hchain
    refine ⟨jsValues gf₂, by simp [jsValues, hne₂], ?_⟩
    rw [List.map_cons, runEvents, List.foldl_cons, hstep0]
    rw [runEvents] at hrun
    rw [hrun, flush]
    simp only
    rw [processBatchCore_of_nonempty ((rest.map (fun e => e.1)).getLastD t₀ + W)
      _ gf₂ rfl hne₂]
    rfl

/-- Witness for C2: three submissions at times 0, 100, 29000 with a 30000ms
window: one drain, fired at 59000 = last submission + window. -/
theorem debounce_single_drain_witness :
    List.Chain (fun a b => a ≤ b ∧ b < a + 30000) 0
      (([(100, (⟨"n2", "pat", "p2"⟩ : MessageIn), (⟨"h.jar", "uh"⟩ : AttachmentIn)),
         (29000, (⟨"n3", "quin", "p3"⟩ : MessageIn),
          (⟨"i.jar", "ui"⟩ : AttachmentIn))]).map (fun e => e.1)) ∧
    ∃ snap : List PendantFile, snap ≠ [] ∧
      flush (runEvents 30000 CoreState.idle
        (((0, (⟨"n1", "oli", "p1"⟩ : MessageIn), (⟨"h.jar", "uh0"⟩ : AttachmentIn)) ::
          [(100, (⟨"n2", "pat", "p2"⟩ : MessageIn), (⟨"h.jar", "uh"⟩ : AttachmentIn)),
           (29000, (⟨"n3", "quin", "p3"⟩ : MessageIn),
            (⟨"i.jar", "ui"⟩ : AttachmentIn))]).map toSubmit)) =
        { pending := some []
          timer := none
          drains := [(([(100, (⟨"n2", "pat", "p2"⟩ : MessageIn),
              (⟨"h.jar", "uh"⟩ : AttachmentIn)),
            (29000, (⟨"n3", "quin", "p3"⟩ : MessageIn),
              (⟨"i.jar", "ui"⟩ : AttachmentIn))].map (fun e => e.1)).getLastD 0 + 30000,
            snap)] } := by
  have hch₀ : List.Chain (fun a b => a ≤ b ∧ b < a + 30000) 0 [100, 29000] :=
    List.Chain.cons ⟨by omega, by omega⟩
      (List.Chain.cons ⟨by omega, by omega⟩ List.Chain.nil)
  have hch : List.Chain (fun a b => a ≤ b ∧ b < a + 30000) 0
      (([(100, (⟨"n2", "pat", "p2"⟩ : MessageIn), (⟨"h.jar", "uh"⟩ : AttachmentIn)),
         (29000, (⟨"n3", "quin", "p3"⟩ : MessageIn),
          (⟨"i.jar", "ui"⟩ : AttachmentIn))]).map (fun e => e.1)) := hch₀
  refine ⟨hch, ?_⟩
  exact (debounce_single_drain 30000 0 ⟨"n1", "oli", "p1"⟩ ⟨"h.jar", "uh0"⟩
    [(100, ⟨"n2", "pat", "p2"⟩, ⟨"h.jar", "uh"⟩),
     (29000, ⟨"n3", "quin", "p3"⟩, ⟨"i.jar", "ui"⟩)] hch).2

/-- C9: the cancel scan removes at most one pending file per call.  A single
message carrying two matching attachments registers two pending files under
the same message id (DiscordClient.setupEvents calls handleFileEvent once per
attachment of the message); one cancellation for that message id deletes only
the first matching filename in the mapping iteration order, leaving the other
file from the same message pending. -/
theorem cancel_removes_at_most_one (W t₁ t₂ t₃ : Nat) (m : MessageIn)
    (a₁ a₂ : AttachmentIn) (hne : a₁.name ≠ a₂.name) :
    pendingList (handleFileEvent W t₂ m a₂
        (handleFileEvent W t₁ m a₁ CoreState.idle).2).2 =
      [(a₁.name, submittedEntry m a₁ false),
       (a₂.name, submittedEntry m a₂ false)] ∧
    (∀ q ∈ pendingList (handleFileEvent W t₂ m a₂
        (handleFileEvent W t₁ m a₁ CoreState.idle).2).2, q.2.messageId = m.id) ∧
    (handleCancelEvent W t₃ m.id (handleFileEvent W t₂ m a₂
        (handleFileEvent W t₁ m a₁ CoreState.idle).2).2).1 = some a₁.name ∧
    pendingList (handleCancelEvent W t₃ m.id (handleFileEvent W t₂ m a₂
        (handleFileEvent W t₁ m a₁ CoreState.idle).2).2).2 =
      [(a₂.name, submittedEntry m a₂ false)] := by
  have hb₁ : (a₁.name == a₂.name) = false := by
    simp only [beq_eq_false_iff_ne, ne_eq]
    exact hne
  have hb₂ : (a₂.name == a₁.name) = false := by
    simp only [beq_eq_false_iff_ne, ne_eq]
    exact fun h => hne h.symm
  have h₁ : (handleFileEvent W t₁ m a₁ CoreState.idle).2 =
      ⟨some [(a₁.name, submittedEntry m a₁ false)], some (t₁ + W), []⟩ := rfl
  have h₂ : (handleFileEvent W t₂ m a₂
      (⟨some [(a₁.name, submittedEntry m a₁ false)], some (t₁ + W), []⟩ : CoreState)).2 =
      ⟨some [(a₁.name, submittedEntry m a₁ false),
             (a₂.name, submittedEntry m a₂ false)], some (t₂ + W), []⟩ := by
    rw [handleFileEvent_eq]
    simp [pendingList, jsSet, jsHas, hb₁, submittedEntry]
  have h₃ : handleCancelEvent W t₃ m.id
      (⟨some [(a₁.name, submittedEntry m a₁ false),
              (a₂.name, submittedEntry m a₂ false)], some (t₂ + W), []⟩ : CoreState) =
      (some a₁.name,
       ⟨some [(a₂.name, submittedEntry m a₂ false)], some (t₃ + W), []⟩) := by
    simp [handleCancelEvent, findCancelTarget, List.find?, submittedEntry,
      jsDelete, resetTimer, List.filter, bne, hb₂]
  rw [h₁, h₂, h₃]
  refine ⟨rfl, ?_, rfl, rfl⟩
  intro q hq
  simp only [pendingList, Option.getD, List.mem_cons,
    List.not_mem_nil, or_false] at hq
  rcases hq with h | h
  · rw [h]; rfl
  · rw [h]; rfl

/-- Witness for C9: a message with attachments x.jar and y.jar, then one
cancellation for that message. -/
theorem cancel_removes_at_most_one_witness :
    (handleCancelEvent 30000 9 "msg7" (handleFileEvent 30000 8 ⟨"msg7", "carol", "l7"⟩
        ⟨"y.jar", "uy"⟩ (handleFileEvent 30000 7 ⟨"msg7", "carol", "l7"⟩
        ⟨"x.jar", "ux"⟩ CoreState.idle).2).2).1 = some "x.jar" ∧
    pendingList (handleCancelEvent 30000 9 "msg7"
        (handleFileEvent 30000 8 ⟨"msg7", "carol", "l7"⟩
        ⟨"y.jar", "uy"⟩ (handleFileEvent 30000 7 ⟨"msg7", "carol", "l7"⟩
        ⟨"x.jar", "ux"⟩ CoreState.idle).2).2).2 =
      [("y.jar", submittedEntry ⟨"msg7", "carol", "l7"⟩ ⟨"y.jar", "uy"⟩ false)] := by
  have h := cancel_removes_at_most_one 30000 7 8 9 ⟨"msg7", "carol", "l7"⟩
    ⟨"x.jar", "ux"⟩ ⟨"y.jar", "uy"⟩ (by decide)
  exact ⟨h.2.2.1, h.2.2.2⟩

/-- C8: cancel scans the pending mapping for an entry whose message id
matches.  When the scan finds one it returns that filename, deletes the
entry (and no other), and resets the debounce timer - also when the deletion
empties the mapping.  When no entry matches it returns nothing and leaves
the whole state unchanged; this is not an error. -/
theorem cancel_spec (W t : Nat) (targetMessageId : String) (s : CoreState) :
    (∀ fn f, findCancelTarget (pendingList s) targetMessageId = some (fn, f) →
      (handleCancelEvent W t targetMessageId s).1 = some fn ∧
      (handleCancelEvent W t targetMessageId s).2.timer = some (t + W) ∧
      (handleCancelEvent W t targetMessageId s).2.drains = s.drains ∧
      fn ∉ (pendingList (handleCancelEvent W t targetMessageId s).2).map (fun p => p.1) ∧
      (∀ q ∈ pendingList s, q.1 ≠ fn →
        q ∈ pendingList (handleCancelEvent W t targetMessageId s).2) ∧
      (∀ q ∈ pendingList (handleCancelEvent W t targetMessageId s).2,
        q ∈ pendingList s ∧ q.1 ≠ fn)) ∧
    (findCancelTarget (pendingList s) targetMessageId = none →
      handleCancelEvent W t targetMessageId s = (none, s)) := by
  constructor
  · intro fn f hfind
    cases hp : s.pending with
    | none =>
      exfalso
      rw [show pendingList s = [] from by simp [pendingList, hp]] at hfind
      simp [findCancelTarget] at hfind
    | some gf =>
      have hgf : pendingList s = gf := by simp [pendingList, hp]
      rw [hgf] at hfind
      have hc : handleCancelEvent W t targetMessageId s =
          (some fn, resetTimer W t { s with pending := some (jsDelete gf fn) }) := by
        simp [handleCancelEvent, hp, hfind]
      rw [hc, hgf]
      refine ⟨rfl, rfl, rfl, ?_, ?_, ?_⟩
      · intro hmem
        rw [List.mem_map] at hmem
        obtain ⟨q, hq, hqf⟩ := hmem
        have := List.of_mem_filter
          (show q ∈ (gf.filter (fun p => p.1 != fn)) from by
            simpa [pendingList, resetTimer, jsDelete] using hq)
        rw [bne_iff_ne] at this
        exact this hqf
      · intro q hq hqn
        simp only [pendingList, resetTimer, jsDelete]
        exact List.mem_filter.mpr ⟨hq, by simpa [bne_iff_ne] using hqn⟩
      · intro q hq
        have hq' : q ∈ gf.filter (fun p => p.1 != fn) := by
          simpa [pendingList, resetTimer, jsDelete] using hq
        have hm := List.mem_filter.mp hq'
        exact ⟨hm.1, by simpa [bne_iff_ne] using hm.2⟩
  · intro hfind
    cases hp : s.pending with
    | none => simp [handleCancelEvent, hp]
    | some gf =>
      have hgf : pendingList s = gf := by simp [pendingList, hp]
      rw [hgf] at hfind
      simp [handleCancelEvent, hp, hfind]

/-- Witness for C8: a one-entry mapping whose entry matches (the deletion
empties the mapping, the timer is still reset), and a cancellation for an
unknown message id on the same state. -/
theorem cancel_spec_witness :
    ((handleCancelEvent 30000 4 "mm"
        ⟨some [("b.jar", ⟨"mm", "b.jar", "ub", "dave", "lb", false⟩)], some 99, []⟩).1 =
      some "b.jar" ∧
     (handleCancelEvent 30000 4 "mm"
        ⟨some [("b.jar", ⟨"mm", "b.jar", "ub", "dave", "lb", false⟩)], some 99, []⟩).2.timer =
      some 30004) ∧
    handleCancelEvent 30000 4 "zz"
        ⟨some [("b.jar", ⟨"mm", "b.jar", "ub", "dave", "lb", false⟩)], some 99, []⟩ =
      (none, ⟨some [("b.jar", ⟨"mm", "b.jar", "ub", "dave", "lb", false⟩)], some 99, []⟩) := by
  have h₁ := (cancel_spec 30000 4 "mm"
    ⟨some [("b.jar", ⟨"mm", "b.jar", "ub", "dave", "lb", false⟩)], some 99, []⟩).1
    "b.jar" ⟨"mm", "b.jar", "ub", "dave", "lb", false⟩ (by decide)
  have h₂ := (cancel_spec 30000 4 "zz"
    ⟨some [("b.jar", ⟨"mm", "b.jar", "ub", "dave", "lb", false⟩)], some 99, []⟩).2
    (by decide)
  exact ⟨⟨h₁.1, h₁.2.1⟩, h₂⟩

end FMBot
